import Mathlib

/-
Verification of the ImplicitWrap recommender wrapper
(replay/models/implicit_wrap.py) against its specification.

The embedding models the data flowing through `_fit`, `_predict` and
`_predict_pairs`.  Relevance values are carried as integers (the float
arithmetic of the external factorization library is opaque here; only
identity and ordering of scores matter for the stated properties).
Parts of the repository that the wrapper calls but that are not part of
its own file (replay.utils.to_csr, the base Recommender entry points) and
the external `implicit` library's `recommend` are modelled from the
specification, as marked in the doc comments.
-/

/-- Interaction row of a log relation: (user_idx, item_idx, relevance). -/
structure Interaction where
  user : Nat
  item : Nat
  rel : Int
deriving DecidableEq, Repr

/-- Log relation: a finite multiset of interactions, kept as a list. -/
abbrev Log := List Interaction

/-- Recommendation output row, matching REC_SCHEMA: (user_idx, item_idx, relevance). -/
structure Row where
  user : Nat
  item : Nat
  rel : Int
deriving DecidableEq, Repr

/-- Modelled from the spec: the Sparse Matrix Builder (replay.utils.to_csr,
called at implicit_wrap.py lines 59, 94 and 110 but not under src/).  Value of
the sparse user-item matrix of a log at (user u, item i): relevance values of
duplicate (user, item) pairs aggregated by the default reducer, sum; pairs
absent from the log are implicitly zero (spec sections 3 and 4.1). -/
def rowVal (log : Log) (u i : Nat) : Int :=
  ((log.filter fun e => e.user == u && e.item == i).map Interaction.rel).sum

/-- Distinct items appearing in a log: the columns of its sparse matrix. -/
def logItems (log : Log) : List Nat :=
  (log.map Interaction.item).dedup

/-- Sparse matrix object as handled by the wrapper, carrying the triples it
was built from; it is read only through `rowVal` of its data. -/
structure CsrMatrix where
  data : Log
deriving DecidableEq, Repr

/-- Modelled from the spec: building the matrix object from a log
(replay.utils.to_csr, not under src/). -/
def toCsr (log : Log) : CsrMatrix := ⟨log⟩

/-- External Factor Model (the wrapped `implicit` model), opaque except for a
deterministic scoring function giving the relevance of item i for user u. -/
structure FactorModel where
  score : Nat → Nat → Int

/-- Ranking order of the modelled Factor Model output: descending relevance,
ties broken by ascending item id (spec section 4.2, step 3c). -/
def rankBefore (a b : Nat × Int) : Bool :=
  b.2 < a.2 || (a.2 == b.2 && a.1 ≤ b.1)

/-- Insertion step of the ranking sort. -/
def insertRanked (x : Nat × Int) : List (Nat × Int) → List (Nat × Int)
  | [] => [x]
  | y :: ys => if rankBefore x y then x :: y :: ys else y :: insertRanked x ys

/-- Sorts (item, relevance) pairs by descending relevance, ties by ascending
item id. -/
def rankDesc : List (Nat × Int) → List (Nat × Int)
  | [] => []
  | x :: xs => insertRanked x (rankDesc xs)

/-- Items the Factor Model may return for one request: the scoreable item
universe `cols`, minus the filter_items list `dropped`, minus — when
filterSeen is set — the items with a nonzero value in the user's row. -/
def eligibleFor (row : Nat → Int) (cols : List Nat) (filterSeen : Bool)
    (dropped : List Nat) : List Nat :=
  cols.filter fun i => decide (i ∉ dropped) && (!filterSeen || row i == 0)

/-- Modelled from the spec: the external library's `model.recommend` for a
single user (spec sections 4.2 step 3 and 6).  Given the user's matrix row,
the scoreable item universe `cols` (the columns of the matrix the row comes
from, or an explicit candidate-items argument), it returns up to k
(item, relevance) pairs ranked by descending relevance with ties broken by
ascending item id, after removing `dropped` (the filter_items argument) and,
when `filterSeen` is set, the items nonzero in the user's row. -/
def FactorModel.recOne (m : FactorModel) (u : Nat) (row : Nat → Int)
    (cols : List Nat) (k : Nat) (filterSeen : Bool) (dropped : List Nat) :
    List (Nat × Int) :=
  (rankDesc ((eligibleFor row cols filterSeen dropped).map
    fun i => (i, m.score u i))).take k

/-- Embeds predict_by_user (implicit_wrap.py lines 74-85): run the model's
recommend for one user on that user's row of the log matrix and tag every
returned (item, relevance) pair with that user's id. -/
def predictByUser (m : FactorModel) (log : Log) (k : Nat) (filterSeen : Bool)
    (dropped : List Nat) (u : Nat) : List Row :=
  (m.recOne u (rowVal log u) (logItems log) k filterSeen dropped).map
    fun p => ⟨u, p.1, p.2⟩

/-- Embeds items_to_drop (implicit_wrap.py lines 87-93): the distinct items of
the log that are not in the candidate set. -/
def itemsToDrop (log : Log) (cand : List Nat) : List Nat :=
  (logItems log).filter fun i => decide (i ∉ cand)

/-- Embeds ImplicitWrap._predict (implicit_wrap.py lines 64-100): group the
requested users (the groupby keeps one group per distinct user_idx value) and
concatenate the per-user recommendation blocks. -/
def predictImpl (m : FactorModel) (log : Log) (k : Nat) (users cand : List Nat)
    (filterSeen : Bool) : List Row :=
  users.dedup.flatMap (predictByUser m log k filterSeen (itemsToDrop log cand))

/-- Errors surfaced by the modelled entry points. -/
inductive RecError where
  | invalidK
  | noFitMatrix
deriving DecidableEq, Repr

/-- Modelled from the spec: the public recommend entry point (the base
Recommender class, not under src/) validates k — InvalidKError on k ≤ 0, spec
sections 4.2 and 7 — before delegating to `_predict`. -/
def recommend (m : FactorModel) (log : Log) (k : Int) (users cand : List Nat)
    (filterSeen : Bool) : Except RecError (List Row) :=
  if k ≤ 0 then Except.error RecError.invalidK
  else Except.ok (predictImpl m log k.toNat users cand filterSeen)

/-- Attributes of an ImplicitWrap instance (implicit_wrap.py lines 35-41). -/
structure WrapState where
  model : FactorModel
  csr_log : Option CsrMatrix

/-- Embeds ImplicitWrap.__init__ (lines 35-41): stores the provided model;
the cached csr_log starts out as None. -/
def initWrap (m : FactorModel) : WrapState := ⟨m, none⟩

/-- Embeds ImplicitWrap._fit (lines 53-61): build the matrix from the log,
rebind the cached csr_log to the fresh matrix, then fit the model; the effect
of the external fit is an opaque function from the matrix to a fitted model. -/
def fitWrap (fitFn : CsrMatrix → FactorModel) (st : WrapState) (log : Log) :
    WrapState :=
  { st with csr_log := some (toCsr log), model := fitFn (toCsr log) }

/-- Embeds ImplicitWrap._load_model (lines 50-51): replaces only the wrapped
model, leaving every other attribute as it was. -/
def loadModel (st : WrapState) (m : FactorModel) : WrapState :=
  { st with model := m }

/-- Embeds line 110 of _predict_pairs: the matrix used for pair scoring is
built fresh from the supplied log, or is the cached fit-time matrix when the
log is omitted. -/
def pairsMatrix (st : WrapState) (log : Option Log) : Option CsrMatrix :=
  match log with
  | some l => some (toCsr l)
  | none => st.csr_log

/-- Distinct users of a pairs relation (line 112). -/
def pairUsers (pairs : List (Nat × Nat)) : List Nat :=
  (pairs.map Prod.fst).dedup

/-- Distinct items of a pairs relation (line 113). -/
def pairItems (pairs : List (Nat × Nat)) : List Nat :=
  (pairs.map Prod.snd).dedup

/-- Embeds ImplicitWrap._predict_pairs (lines 102-124): indexing the matrix
rows fails when no matrix is available (csr_log still None and no log given);
otherwise the model scores, for every distinct user of `pairs`, all distinct
items of `pairs` (N = number of distinct items, no seen-item filtering, no
filter_items, candidate items = the distinct items of `pairs`), and the
user-by-item grid is flattened into (user_idx, item_idx, relevance) rows. -/
def predictPairsRaw (st : WrapState) (pairs : List (Nat × Nat))
    (log : Option Log) : Except RecError (List Row) :=
  match pairsMatrix st log with
  | none => Except.error RecError.noFitMatrix
  | some mat =>
      Except.ok ((pairUsers pairs).flatMap fun u =>
        (st.model.recOne u (rowVal mat.data u) (pairItems pairs)
          (pairItems pairs).length false []).map fun p => ⟨u, p.1, p.2⟩)

/-- Modelled from the spec: the public score_pairs entry point (the base
Recommender predict_pairs, not under src/) filters the users-by-items grid
down to exactly the requested pairs (spec section 4.4). -/
def scorePairs (st : WrapState) (pairs : List (Nat × Nat)) (log : Option Log) :
    Except RecError (List Row) :=
  (predictPairsRaw st pairs log).map fun res =>
    res.filter fun r => decide ((r.user, r.item) ∈ pairs)

/-- Concrete model used to exercise the definitions: a fixed scoring rule. -/
def exModel : FactorModel := ⟨fun u i => (u : Int) + 2 * (i : Int)⟩

/-- Concrete log from the module doctest: users 1 and 2, items 1, 2, 3. -/
def exLog : Log := [⟨1, 1, 1⟩, ⟨1, 2, 1⟩, ⟨2, 2, 1⟩, ⟨2, 3, 1⟩]

theorem perm_insertRanked (x : Nat × Int) (l : List (Nat × Int)) :
    (insertRanked x l).Perm (x :: l) := by
  induction l with
  | nil => simp [insertRanked]
  | cons y ys ih =>
      by_cases h : rankBefore x y
      · simp [insertRanked, h]
      · simp only [insertRanked, if_neg h]
        exact (ih.cons y).trans (List.Perm.swap x y ys)

theorem perm_rankDesc (l : List (Nat × Int)) : (rankDesc l).Perm l := by
  induction l with
  | nil => simp [rankDesc]
  | cons x xs ih =>
      exact (perm_insertRanked x (rankDesc xs)).trans (ih.cons x)

theorem length_rankDesc (l : List (Nat × Int)) :
    (rankDesc l).length = l.length :=
  (perm_rankDesc l).length_eq

theorem mem_eligibleFor {row : Nat → Int} {cols : List Nat} {fs : Bool}
    {dropped : List Nat} {i : Nat} :
    i ∈ eligibleFor row cols fs dropped ↔
      i ∈ cols ∧ i ∉ dropped ∧ (fs = true → row i = 0) := by
  simp only [eligibleFor, List.mem_filter, Bool.and_eq_true, decide_eq_true_eq,
    Bool.or_eq_true, Bool.not_eq_true', beq_iff_eq, and_assoc]
  constructor
  · rintro ⟨h1, h2, h3 | h3⟩
    · exact ⟨h1, h2, fun hfs => absurd (h3 ▸ hfs) (by simp [h3])⟩
    · exact ⟨h1, h2, fun _ => h3⟩
  · rintro ⟨h1, h2, h3⟩
    refine ⟨h1, h2, ?_⟩
    cases fs with
    | false => exact Or.inl rfl
    | true => exact Or.inr (h3 rfl)

theorem recOne_mem {m : FactorModel} {u : Nat} {row : Nat → Int}
    {cols : List Nat} {k : Nat} {fs : Bool} {dropped : List Nat}
    {p : Nat × Int} (hp : p ∈ m.recOne u row cols k fs dropped) :
    p.1 ∈ eligibleFor row cols fs dropped ∧ p.2 = m.score u p.1 := by
  have h1 : p ∈ rankDesc ((eligibleFor row cols fs dropped).map
      fun i => (i, m.score u i)) := List.take_subset _ _ hp
  have h2 := (perm_rankDesc _).mem_iff.mp h1
  obtain ⟨i, hi, hpe⟩ := List.mem_map.mp h2
  cases hpe
  exact ⟨hi, rfl⟩

theorem recOne_length (m : FactorModel) (u : Nat) (row : Nat → Int)
    (cols : List Nat) (k : Nat) (fs : Bool) (dropped : List Nat) :
    (m.recOne u row cols k fs dropped).length =
      min k (eligibleFor row cols fs dropped).length := by
  simp [FactorModel.recOne, List.length_take, length_rankDesc]

theorem recOne_full (m : FactorModel) (u : Nat) (row : Nat → Int)
    (cols : List Nat) :
    m.recOne u row cols cols.length false [] =
      rankDesc (cols.map fun i => (i, m.score u i)) := by
  have hel : eligibleFor row cols false [] = cols := by
    simp [eligibleFor]
  rw [FactorModel.recOne, hel]
  apply List.take_of_length_le
  simp [length_rankDesc]

theorem countP_flatMap_eq_single {α β : Type} [DecidableEq α] (q : β → Bool)
    (f : α → List β) (us : List α) (u : α) (c : Nat) (hn : us.Nodup)
    (h : ∀ v ∈ us, List.countP q (f v) = if v = u then c else 0) :
    List.countP q (us.flatMap f) = if u ∈ us then c else 0 := by
  induction us with
  | nil => simp
  | cons v vs ih =>
      rw [List.flatMap_cons, List.countP_append]
      rcases List.nodup_cons.mp hn with ⟨hv, hvs⟩
      have hfv := h v (List.mem_cons_self v vs)
      have ihv := ih hvs fun w hw => h w (List.mem_cons_of_mem v hw)
      by_cases hvu : v = u
      · subst hvu
        rw [if_pos rfl] at hfv
        rw [hfv, ihv, if_neg hv, if_pos (List.mem_cons_self v vs)]
        omega
      · rw [if_neg hvu] at hfv
        have : ¬u = v := fun h' => hvu h'.symm
        rw [hfv, ihv]
        by_cases hu : u ∈ vs <;> simp [hu, this, List.mem_cons]

theorem rowVal_eq_zero_of_absent {log : Log} {u : Nat}
    (hu : ∀ e ∈ log, e.user ≠ u) (i : Nat) : rowVal log u i = 0 := by
  have hf : log.filter (fun e => e.user == u && e.item == i) = [] := by
    rw [List.filter_eq_nil_iff]
    intro e he
    simp only [Bool.and_eq_true, beq_iff_eq, not_and]
    intro h1
    exact absurd h1 (hu e he)
  simp [rowVal, hf]

/-- C2: every row returned by the _predict path has its item in the candidate
set (and in the log's item universe): an item appearing in the log but not in
the candidate set is excluded from every user's output, whatever the value of
filter_seen_items. -/
theorem predict_items_in_candidates (m : FactorModel) (log : Log) (k : Nat)
    (users cand : List Nat) (fs : Bool) (r : Row)
    (hr : r ∈ predictImpl m log k users cand fs) :
    r.item ∈ cand ∧ r.item ∈ logItems log := by
  obtain ⟨u, hu, hrb⟩ := List.mem_flatMap.mp hr
  obtain ⟨p, hp, hre⟩ := List.mem_map.mp hrb
  cases hre
  have h := (recOne_mem hp).1
  rw [mem_eligibleFor] at h
  obtain ⟨hcols, hdrop, -⟩ := h
  refine ⟨?_, hcols⟩
  by_contra hnc
  exact hdrop (List.mem_filter.mpr ⟨hcols, by simpa using hnc⟩)

theorem predict_items_in_candidates_witness :
    (⟨1, 3, 7⟩ : Row).item ∈ [1, 2, 3] ∧
      (⟨1, 3, 7⟩ : Row).item ∈ logItems exLog :=
  predict_items_in_candidates exModel exLog 1 [1] [1, 2, 3] true
    ⟨1, 3, 7⟩ (by decide)

/-- C3: with filter_seen_items set, recommend succeeds for every positive k —
fewer than k eligible items per user is not an error — and no returned
(user, item) row has a nonzero entry in that user's row of the log. -/
theorem recommend_filters_seen (m : FactorModel) (log : Log) (k : Int)
    (users cand : List Nat) (hk : 0 < k) :
    ∃ res, recommend m log k users cand true = Except.ok res ∧
      ∀ r ∈ res, rowVal log r.user r.item = 0 := by
  refine ⟨predictImpl m log k.toNat users cand true, ?_, ?_⟩
  · rw [recommend, if_neg (not_le.mpr hk)]
  · intro r hr
    obtain ⟨u, hu, hrb⟩ := List.mem_flatMap.mp hr
    obtain ⟨p, hp, hre⟩ := List.mem_map.mp hrb
    cases hre
    have h := (recOne_mem hp).1
    rw [mem_eligibleFor] at h
    exact h.2.2 rfl

theorem recommend_filters_seen_witness :
    ∃ res, recommend exModel exLog 2 [1, 2] [1, 2, 3] true = Except.ok res ∧
      ∀ r ∈ res, rowVal exLog r.user r.item = 0 :=
  recommend_filters_seen exModel exLog 2 [1, 2] [1, 2, 3] (by decide)

/-- C4: a requested user with no interactions in the log is looked up as an
all-zero row rather than failing, and seen-item filtering has no effect on
that user's block: filter_seen_items true and false give the same rows, drawn
from the full candidate universe. -/
theorem predict_unseen_user (m : FactorModel) (log : Log) (k : Nat)
    (dropped : List Nat) (u : Nat) (hu : ∀ e ∈ log, e.user ≠ u) :
    (∀ i, rowVal log u i = 0) ∧
      predictByUser m log k true dropped u =
        predictByUser m log k false dropped u := by
  have hrow := rowVal_eq_zero_of_absent hu
  refine ⟨hrow, ?_⟩
  have hel : eligibleFor (rowVal log u) (logItems log) true dropped =
      eligibleFor (rowVal log u) (logItems log) false dropped := by
    simp only [eligibleFor]
    apply List.filter_congr
    intro i _
    simp [hrow i]
  simp [predictByUser, FactorModel.recOne, hel]

theorem predict_unseen_user_witness :
    rowVal exLog 5 2 = 0 ∧
      predictByUser exModel exLog 2 true [] 5 =
        predictByUser exModel exLog 2 false [] 5 :=
  ⟨(predict_unseen_user exModel exLog 2 [] 5 (by decide)).1 2,
   (predict_unseen_user exModel exLog 2 [] 5 (by decide)).2⟩

/-- C5: for any user, the rows attributed to that user number exactly
min(k, number of eligible items) when the user was requested (and zero
otherwise): never more than k per user, and fewer than k only when the
eligible — in-universe, not globally dropped, unseen when filtering — items
are exhausted. -/
theorem predict_at_most_k (m : FactorModel) (log : Log) (k : Nat)
    (users cand : List Nat) (fs : Bool) (u : Nat) :
    (predictByUser m log k fs (itemsToDrop log cand) u).length =
      min k (eligibleFor (rowVal log u) (logItems log) fs
        (itemsToDrop log cand)).length ∧
    (predictImpl m log k users cand fs).countP (fun r => r.user == u) =
      if u ∈ users then
        min k (eligibleFor (rowVal log u) (logItems log) fs
          (itemsToDrop log cand)).length
      else 0 := by
  constructor
  · simp [predictByUser, recOne_length]
  · rw [predictImpl,
      countP_flatMap_eq_single _ _ _ u
        (min k (eligibleFor (rowVal log u) (logItems log) fs
          (itemsToDrop log cand)).length)
        (List.nodup_dedup users) ?blocks]
    · simp [List.mem_dedup]
    case blocks =>
      intro v hv
      rw [predictByUser, List.countP_map]
      by_cases hvu : v = u
      · subst hvu
        rw [if_pos rfl]
        have h1 : ((fun r : Row => r.user == v) ∘
            fun p : Nat × Int => (⟨v, p.1, p.2⟩ : Row)) = fun _ => true := by
          funext p
          simp
        rw [h1, List.countP_true, recOne_length]
      · rw [if_neg hvu]
        have h1 : ((fun r : Row => r.user == u) ∘
            fun p : Nat × Int => (⟨v, p.1, p.2⟩ : Row)) = fun _ => false := by
          funext p
          simp [hvu]
        rw [h1, List.countP_false]
        rfl

/-- C6: recommend with non-positive k fails with InvalidKError and produces
no recommendation rows. -/
theorem recommend_invalid_k (m : FactorModel) (log : Log) (k : Int)
    (users cand : List Nat) (fs : Bool) (hk : k ≤ 0) :
    recommend m log k users cand fs = Except.error RecError.invalidK := by
  simp [recommend, hk]

theorem recommend_invalid_k_witness :
    recommend exModel exLog 0 [1] [1, 2, 3] true =
      Except.error RecError.invalidK :=
  recommend_invalid_k exModel exLog 0 [1] [1, 2, 3] true (by decide)

/-- C7: a fit call replaces the cached matrix with one freshly built from its
log, independently of whatever was cached before (replacement, not in-place
mutation: csr_log is rebound wholesale); pair scoring that supplies a log
uses a fresh matrix built from that log, while pair scoring that omits the
log reads the cached fit-time matrix, and neither touches the cache. -/
theorem fit_replaces_cached_matrix (fitFn : CsrMatrix → FactorModel)
    (st st2 : WrapState) (l : Log) :
    (fitWrap fitFn st l).csr_log = some (toCsr l) ∧
    (fitWrap fitFn st l).csr_log = (fitWrap fitFn st2 l).csr_log ∧
    pairsMatrix st (some l) = some (toCsr l) ∧
    pairsMatrix st none = st.csr_log :=
  ⟨rfl, rfl, rfl, rfl⟩

/-- C8: recommend is deterministic — two calls on the same fitted model with
identical arguments return identical results; the Factor Model's scoring is a
function of (user, item), hence deterministic by construction. -/
theorem recommend_deterministic (m : FactorModel) (log : Log) (k : Int)
    (users cand : List Nat) (fs : Bool) (r1 r2 : Except RecError (List Row))
    (h1 : r1 = recommend m log k users cand fs)
    (h2 : r2 = recommend m log k users cand fs) : r1 = r2 :=
  h1.trans h2.symm

theorem recommend_deterministic_witness :
    recommend exModel exLog 1 [1] [1, 2, 3] true =
      recommend exModel exLog 1 [1] [1, 2, 3] true :=
  recommend_deterministic exModel exLog 1 [1] [1, 2, 3] true _ _ rfl rfl

/-- C9: every row of the merged _predict output carries the id of one of the
requested users, and within one user's block every row carries exactly that
user's id, so each (item, relevance) pair is attributed to the user whose
matrix row was scored. -/
theorem predict_user_attribution (m : FactorModel) (log : Log) (k : Nat)
    (users cand : List Nat) (fs : Bool) :
    (∀ r ∈ predictImpl m log k users cand fs, r.user ∈ users) ∧
      ∀ u : Nat, ∀ r ∈ predictByUser m log k fs (itemsToDrop log cand) u,
        r.user = u := by
  constructor
  · intro r hr
    obtain ⟨u, hu, hrb⟩ := List.mem_flatMap.mp hr
    obtain ⟨p, hp, hre⟩ := List.mem_map.mp hrb
    cases hre
    exact List.mem_dedup.mp hu
  · intro u r hr
    obtain ⟨p, hp, hre⟩ := List.mem_map.mp hr
    cases hre
    rfl

theorem predict_user_attribution_witness :
    (⟨1, 3, 7⟩ : Row).user ∈ [1] :=
  (predict_user_attribution exModel exLog 1 [1] [1, 2, 3] true).1
    ⟨1, 3, 7⟩ (by decide)

/-- C10: score_pairs with the log omitted reads the cached fit-time matrix,
which is None on a freshly constructed instance; loading a saved model
replaces only the wrapped model and leaves the cached matrix unchanged; so on
any instance whose cache is still None, score_pairs without a log fails
instead of returning scores. -/
theorem scorePairs_requires_fit (m m2 : FactorModel) (st : WrapState)
    (pairs : List (Nat × Nat)) (hst : st.csr_log = none) :
    (initWrap m).csr_log = none ∧
      (loadModel st m2).csr_log = st.csr_log ∧
      scorePairs st pairs none = Except.error RecError.noFitMatrix := by
  refine ⟨rfl, rfl, ?_⟩
  simp [scorePairs, predictPairsRaw, pairsMatrix, hst, Except.map]

theorem scorePairs_requires_fit_witness :
    (initWrap exModel).csr_log = none ∧
      (loadModel (initWrap exModel) exModel).csr_log =
        (initWrap exModel).csr_log ∧
      scorePairs (initWrap exModel) [(1, 2)] none =
        Except.error RecError.noFitMatrix :=
  scorePairs_requires_fit exModel exModel (initWrap exModel) [(1, 2)] rfl

theorem predictPairsRaw_some (st : WrapState) (pairs : List (Nat × Nat))
    (l : Log) :
    predictPairsRaw st pairs (some l) =
      Except.ok ((pairUsers pairs).flatMap fun v =>
        (st.model.recOne v (rowVal l v) (pairItems pairs)
          (pairItems pairs).length false []).map
          fun p => (⟨v, p.1, p.2⟩ : Row)) := rfl

theorem countP_pairBlock (m : FactorModel) (pairs : List (Nat × Nat))
    (row : Nat → Int) (u i v : Nat) (hi : i ∈ pairs.map Prod.snd) :
    List.countP (fun r : Row => r.user == u && r.item == i)
      ((m.recOne v row (pairItems pairs) (pairItems pairs).length false []).map
        fun p => (⟨v, p.1, p.2⟩ : Row)) = if v = u then 1 else 0 := by
  rw [recOne_full, List.countP_map, List.Perm.countP_eq _ (perm_rankDesc _),
    List.countP_map]
  by_cases hvu : v = u
  · subst hvu
    rw [if_pos rfl]
    have hc : ∀ j ∈ pairItems pairs,
        ((((fun r : Row => r.user == v && r.item == i) ∘
          fun p : Nat × Int => (⟨v, p.1, p.2⟩ : Row)) ∘
          fun j => (j, m.score v j)) j = true) ↔ ((fun j : Nat => j == i) j = true) := by
      intro j _
      simp [Function.comp]
    rw [List.countP_congr hc, ← List.count_eq_countP, pairItems,
      List.count_dedup, if_pos hi]
  · rw [if_neg hvu]
    apply List.countP_eq_zero.mpr
    intro j _
    simp [Function.comp, hvu]

/-- C1: score_pairs over a non-empty pairs relation (with a log supplied)
returns exactly one (user_idx, item_idx, relevance) row for every (user, item)
identity present in pairs, and no row for any (user, item) combination not in
pairs: each pair's count in the output is one, every other combination's count
is zero. -/
theorem scorePairs_exact_rows (st : WrapState) (pairs : List (Nat × Nat))
    (l : Log) (res : List Row) (_hne : pairs ≠ [])
    (hres : scorePairs st pairs (some l) = Except.ok res) (u i : Nat) :
    res.countP (fun r => r.user == u && r.item == i) =
      if (u, i) ∈ pairs then 1 else 0 := by
  rw [scorePairs, predictPairsRaw_some] at hres
  simp only [Except.map, Except.ok.injEq] at hres
  subst hres
  rw [List.countP_filter]
  by_cases hmem : (u, i) ∈ pairs
  · rw [if_pos hmem]
    have hpt : ∀ r : Row,
        (((r.user == u && r.item == i) &&
            decide ((r.user, r.item) ∈ pairs)) = true) ↔
          ((r.user == u && r.item == i) = true) := by
      intro r
      by_cases h1 : r.user = u
      · by_cases h2 : r.item = i
        · simp [h1, h2, hmem]
        · simp [h2]
      · simp [h1]
    rw [List.countP_congr fun r _ => hpt r]
    have hi : i ∈ pairs.map Prod.snd := List.mem_map.mpr ⟨(u, i), hmem, rfl⟩
    have hu : u ∈ pairUsers pairs :=
      List.mem_dedup.mpr (List.mem_map.mpr ⟨(u, i), hmem, rfl⟩)
    rw [countP_flatMap_eq_single _ _ (pairUsers pairs) u 1
      (List.nodup_dedup (pairs.map Prod.fst))
      (fun v _ => countP_pairBlock st.model pairs (rowVal l v) u i v hi),
      if_pos hu]
  · rw [if_neg hmem]
    apply List.countP_eq_zero.mpr
    intro r _ hcon
    simp only [Bool.and_eq_true, beq_iff_eq, decide_eq_true_eq] at hcon
    obtain ⟨⟨h1, h2⟩, h3⟩ := hcon
    rw [h1, h2] at h3
    exact hmem h3

theorem scorePairs_exact_rows_witness :
    List.countP (fun r : Row => r.user == 1 && r.item == 2)
      [(⟨1, 2, 5⟩ : Row), ⟨2, 3, 8⟩] =
      if ((1, 2) : Nat × Nat) ∈ [((1, 2) : Nat × Nat), (2, 3)] then 1 else 0 :=
  scorePairs_exact_rows (initWrap exModel) [(1, 2), (2, 3)] exLog
    [⟨1, 2, 5⟩, ⟨2, 3, 8⟩] (by decide) rfl 1 2
